import Mathlib

/- Verification development for the NRRD 3-D mask preview generator
   (nrrd_preview.py). The source program is embedded shallowly:

   * colors are modelled as 8-bit RGBA quadruples of naturals (the
     matplotlib palettes tab10, tab20 and Set3 are lists of exact 8-bit
     values, so the encoding value/255 is a bijection onto the float
     colors the library returns);
   * a matplotlib ListedColormap called with an integer index i returns
     the i-th entry for i < N and the "over" color, which defaults to the
     last entry, for i >= N (it clamps, it does not wrap);
   * numpy arrays become total functions together with explicit
     dimensions, and every indexing operation that can raise IndexError
     is embedded as an Option-returning lookup;
   * the CLI entry point becomes a pure function from an abstract
     file-existence flag and the loaded volume to an outcome record. -/

namespace NrrdPreview

/-- RGBA color, 8 bits per channel. -/
abbrev Color := ℕ × ℕ × ℕ × ℕ

/-- The fully transparent color: all channels zero (np.zeros initialises
the output image to this value). -/
def transparent : Color := (0, 0, 0, 0)

/-- The matplotlib tab10 categorical palette (10 colors), 8-bit RGBA. -/
def tab10 : List Color :=
  [ (31, 119, 180, 255), (255, 127, 14, 255), (44, 160, 44, 255),
    (214, 39, 40, 255), (148, 103, 189, 255), (140, 86, 75, 255),
    (227, 119, 194, 255), (127, 127, 127, 255), (188, 189, 34, 255),
    (23, 190, 207, 255) ]

/-- The matplotlib tab20 categorical palette (20 colors), 8-bit RGBA. -/
def tab20 : List Color :=
  [ (31, 119, 180, 255), (174, 199, 232, 255), (255, 127, 14, 255),
    (255, 187, 120, 255), (44, 160, 44, 255), (152, 223, 138, 255),
    (214, 39, 40, 255), (255, 152, 150, 255), (148, 103, 189, 255),
    (197, 176, 213, 255), (140, 86, 75, 255), (196, 156, 148, 255),
    (227, 119, 194, 255), (247, 182, 210, 255), (127, 127, 127, 255),
    (199, 199, 199, 255), (188, 189, 34, 255), (219, 219, 141, 255),
    (23, 190, 207, 255), (158, 218, 229, 255) ]

/-- The matplotlib Set3 categorical palette (12 colors), 8-bit RGBA. -/
def set3 : List Color :=
  [ (141, 211, 199, 255), (255, 255, 179, 255), (190, 186, 218, 255),
    (251, 128, 114, 255), (128, 177, 211, 255), (253, 180, 98, 255),
    (179, 222, 105, 255), (252, 205, 229, 255), (217, 217, 217, 255),
    (188, 128, 189, 255), (204, 235, 197, 255), (255, 237, 111, 255) ]

/-- Semantics of calling a matplotlib ListedColormap with a non-negative
integer index: indices below the palette length select that entry, larger
indices return the "over" color, which defaults to the last entry. -/
def cmapApply (cs : List Color) (i : ℕ) : Color :=
  cs.getD (min i (cs.length - 1)) transparent

/-- Embedding of get_distinct_colors (nrrd_preview.py lines 25-38):
tab10 for n <= 10, otherwise tab20 for the first min(n,20) indices,
extended for n > 20 by Set3 called at indices 0..n-21. -/
def get_distinct_colors (n : ℕ) : List Color :=
  if n ≤ 10 then
    (List.range n).map (cmapApply tab10)
  else
    let colors := (List.range (min n 20)).map (cmapApply tab20)
    if 20 < n then colors ++ (List.range (n - 20)).map (cmapApply set3)
    else colors

/-- A 2-D integer slice: height, width and a value function (numpy array
of shape (h, w)). -/
structure Slice2D where
  h : ℕ
  w : ℕ
  val : ℕ → ℕ → ℤ

/-- A 2-D RGBA image: height, width and a pixel color function. -/
structure RGBAImage where
  h : ℕ
  w : ℕ
  px : ℕ → ℕ → Color

/-- The color a single pixel of value v receives inside colorize_slice:
the output array starts at the all-zero transparent color and the loop
over the (label, color) pairs overwrites the pixel whenever v equals the
label, the last matching pair winning. -/
def paintPixel (mapping : List (ℤ × Color)) (v : ℤ) : Color :=
  mapping.foldl (fun acc lc => if v = lc.1 then lc.2 else acc) transparent

/-- Embedding of colorize_slice (nrrd_preview.py lines 75-81): an RGBA
image of the same height and width, each pixel painted from the
label-to-color mapping (taken as an explicit parameter; in the source it
is the enclosing label_to_color dictionary, iterated in insertion
order). -/
def colorize_slice (mapping : List (ℤ × Color)) (s : Slice2D) : RGBAImage :=
  ⟨s.h, s.w, fun i j => paintPixel mapping (s.val i j)⟩

/-- All in-range values of a slice, row by row. -/
def sliceValues (s : Slice2D) : List ℤ :=
  (List.range s.h).flatMap fun i => (List.range s.w).map fun j => s.val i j

/-- All in-range pixel colors of an image, row by row. -/
def imagePixels (img : RGBAImage) : List Color :=
  (List.range img.h).flatMap fun i => (List.range img.w).map fun j => img.px i j

/-- Number of distinct colors occurring among the in-range pixels. -/
def distinct_color_count (img : RGBAImage) : ℕ :=
  (imagePixels img).toFinset.card

/-- A 3-D integer label volume: three dimensions and a value function
(numpy array of shape (dim0, dim1, dim2)). -/
structure Volume where
  dim0 : ℕ
  dim1 : ℕ
  dim2 : ℕ
  val : ℕ → ℕ → ℕ → ℤ

/-- All in-range values of a volume, in row-major order. -/
def allValues (v : Volume) : List ℤ :=
  (List.range v.dim0).flatMap fun i =>
    (List.range v.dim1).flatMap fun j =>
      (List.range v.dim2).map fun k => v.val i j k

/-- Embedding of np.unique(data) (nrrd_preview.py line 47): the distinct
values of the volume in ascending order (sort, then drop duplicates;
the result is characterised up to equality by being sorted, duplicate
free and having the same members as the value list). -/
def unique_labels (v : Volume) : List ℤ :=
  ((allValues v).insertionSort (· ≤ ·)).dedup

/-- Embedding of line 48: keep only the non-zero labels. -/
def nonzero_labels (v : Volume) : List ℤ :=
  (unique_labels v).filter (· ≠ 0)

/-- Embedding of lines 71-72: the palette for the label count, zipped
with the ascending labels (dictionary insertion order is the enumeration
order of the sorted labels). -/
def label_to_color (v : Volume) : List (ℤ × Color) :=
  (nonzero_labels v).zip (get_distinct_colors (nonzero_labels v).length)

/-- Embedding of lines 85-87: axial slice positions at 25, 50 and 75
percent of the first axis (integer division). -/
def slice_positions (v : Volume) : List ℕ :=
  [v.dim0 / 4, v.dim0 / 2, 3 * v.dim0 / 4]

/-- The axial plane data[z, :, :], shape (dim1, dim2), as a total
function (used only under the in-bounds guard of the source). -/
def axialSliceAt (v : Volume) (z : ℕ) : Slice2D :=
  ⟨v.dim1, v.dim2, fun j k => v.val z j k⟩

/-- Indexing data[z, :, :] with its bound check: IndexError becomes
none. -/
def axialSlice (v : Volume) (z : ℕ) : Option Slice2D :=
  if z < v.dim0 then some (axialSliceAt v z) else none

/-- Indexing data[:, y, :] (shape (dim0, dim2)) with its bound check. -/
def coronalSlice (v : Volume) (y : ℕ) : Option Slice2D :=
  if y < v.dim1 then some ⟨v.dim0, v.dim2, fun i k => v.val i y k⟩ else none

/-- Indexing data[:, :, x] (shape (dim0, dim1)) with its bound check. -/
def sagittalSlice (v : Volume) (x : ℕ) : Option Slice2D :=
  if x < v.dim2 then some ⟨v.dim0, v.dim1, fun i j => v.val i j x⟩ else none

/-- A legend entry: either a real patch carrying a label and its color
(the source renders it with text "Label n"), or the gray summary patch
carrying the count of labels not shown (text "... +k more"). -/
inductive Patch where
  | real (label : ℤ) (color : Color)
  | summary (more : ℕ)
deriving DecidableEq

/-- Embedding of lines 116-122: one patch per mapping entry in order;
if there are more than 15, keep the first 14 and append a summary patch
counting the rest. -/
def legend_patches (m : List (ℤ × Color)) : List Patch :=
  let patches := m.map fun lc => Patch.real lc.1 lc.2
  if 15 < patches.length then
    patches.take 14 ++ [Patch.summary (patches.length - 14)]
  else patches

/-- Result of the empty-label branch (lines 50-68): a 1x3 grid of
grayscale panels, each carrying its axis name, its slice index and the
extracted slice. -/
structure EmptyRender where
  layout : ℕ × ℕ
  panels : List (String × ℕ × Slice2D)

/-- Result of the labeled branch (lines 70-132): a 2x3 grid with the
guard-filtered axial panels, the coronal and sagittal panels, the legend
and the titles. -/
structure LabeledRender where
  layout : ℕ × ℕ
  axialPanels : List (ℕ × RGBAImage)
  coronal : ℕ × RGBAImage
  sagittal : ℕ × RGBAImage
  legend : List Patch
  legendCount : ℕ
  figTitle : ℕ × ℕ × ℕ

/-- The two mutually exclusive outcomes of render_slices. -/
inductive RenderResult where
  | empty (e : EmptyRender)
  | labeled (r : LabeledRender)

/-- Embedding of the empty-label branch: extract the three mid slices in
source order (axial, coronal, sagittal); the first out-of-bounds index
aborts the computation, as the corresponding IndexError would. -/
def renderEmpty (v : Volume) : Option EmptyRender := do
  let s0 ← axialSlice v (v.dim0 / 2)
  let s1 ← coronalSlice v (v.dim1 / 2)
  let s2 ← sagittalSlice v (v.dim2 / 2)
  some ⟨(1, 3),
    [ ("Axial", v.dim0 / 2, s0),
      ("Coronal", v.dim1 / 2, s1),
      ("Sagittal", v.dim2 / 2, s2) ]⟩

/-- Embedding of the labeled branch: colorize the guarded axial slices,
then the unguarded coronal and sagittal mid slices, build the legend
from the label-color mapping and record the titles. -/
def render_labeled (v : Volume) : Option LabeledRender := do
  let m := label_to_color v
  let axialPanels := ((slice_positions v).filter (fun z => z < v.dim0)).map
    fun z => (z, colorize_slice m (axialSliceAt v z))
  let cor ← coronalSlice v (v.dim1 / 2)
  let sag ← sagittalSlice v (v.dim2 / 2)
  some ⟨(2, 3), axialPanels,
    (v.dim1 / 2, colorize_slice m cor),
    (v.dim2 / 2, colorize_slice m sag),
    legend_patches m, (nonzero_labels v).length,
    (v.dim0, v.dim1, v.dim2)⟩

/-- Embedding of render_slices (lines 41-132): branch on whether any
non-zero label exists; none stands for an uncaught exception. -/
def render_slices (v : Volume) : Option RenderResult :=
  if nonzero_labels v = [] then (renderEmpty v).map RenderResult.empty
  else (render_labeled v).map RenderResult.labeled

/-- A filesystem path, split into the part before the extension and the
extension itself (the two parts pathlib.with_suffix distinguishes). -/
structure FsPath where
  stem : String
  ext : String
deriving DecidableEq

/-- Embedding of pathlib.Path.with_suffix: replace the extension. -/
def with_suffix (p : FsPath) (s : String) : FsPath :=
  ⟨p.stem, s⟩

/-- Embedding of line 147: an explicit output argument wins, otherwise
the input path with its extension replaced by .jpg. -/
def resolve_output (input : FsPath) (output : Option FsPath) : FsPath :=
  output.getD (with_suffix input ".jpg")

/-- How the process ends: normal return, an explicit sys.exit with a
code, or an uncaught exception (which makes the interpreter exit with a
non-zero status). -/
inductive ExitStatus where
  | success
  | cleanExit (code : ℕ)
  | uncaughtError
deriving DecidableEq

/-- Observable outcome of one run of main: messages on the two streams,
whether a load was attempted, which output file (if any) was written,
and how the process ended. -/
structure MainOutcome where
  stderrMsgs : List String
  stdoutMsgs : List String
  loaded : Bool
  outputWritten : Option FsPath
  exit : ExitStatus

/-- Embedding of main (lines 135-155): check existence before anything
else, exiting with status 1 on a missing input; otherwise resolve the
output path, load (the loaded volume is the vol parameter, the reader
library being external), render and save. A render failure is an
uncaught exception: no output is written and the process dies
non-zero. -/
def main_run (fileExists : Bool) (vol : Volume) (input : FsPath)
    (output : Option FsPath) : MainOutcome :=
  if !fileExists then
    ⟨["Error: File not found"], [], false, none, ExitStatus.cleanExit 1⟩
  else
    let outPath := resolve_output input output
    match render_slices vol with
    | none => ⟨[], ["Loading", "Shape", "Rendering"], true, none,
        ExitStatus.uncaughtError⟩
    | some _ => ⟨[], ["Loading", "Shape", "Rendering", "Saved"], true,
        some outPath, ExitStatus.success⟩

/-- Modelled from the spec (section 4.1): the palette selector as the
spec words it for n > 20, with the extra colors obtained by cycling
through the secondary Set3 palette, repeating its entries (index taken
modulo its size 12); the source instead clamps the index. -/
def get_distinct_colors_cycled (n : ℕ) : List Color :=
  if n ≤ 10 then
    (List.range n).map (cmapApply tab10)
  else
    let colors := (List.range (min n 20)).map (cmapApply tab20)
    if 20 < n then
      colors ++ (List.range (n - 20)).map (fun i => set3.getD (i % 12) transparent)
    else colors

/-- Concrete slice for the C1 counterexample: a 1x1 slice whose single
pixel carries the mapped label 1, so the output has no transparent
pixel. -/
def cex_slice : Slice2D := ⟨1, 1, fun _ _ => 1⟩

/-- Mapping for the C1 counterexample: label 1 gets the first tab10
color. -/
def cex_map : List (ℤ × Color) := [(1, (31, 119, 180, 255))]

/-- Concrete slice for the C1 witness: 2x2, labels 1 and 2 plus
background. -/
def cw_slice : Slice2D :=
  ⟨2, 2, fun i j =>
    if i = 0 ∧ j = 1 then 1 else if i = 1 ∧ j = 0 then 2 else 0⟩

/-- Mapping for the C1 witness: two labels with two distinct opaque
colors. -/
def cw_map : List (ℤ × Color) :=
  [(1, (31, 119, 180, 255)), (2, (255, 127, 14, 255))]

/-- Everything C1 asserts of colorize_slice, amended: the per-pixel
clauses hold for any duplicate-free mapping without key 0, and the
distinct-color count is k+1 under the extra hypotheses the
counterexample forces (injective non-transparent colors, a complete
mapping, and at least one background pixel). -/
def colorizeProps (m : List (ℤ × Color)) (s : Slice2D) : Prop :=
  ((colorize_slice m s).h = s.h ∧ (colorize_slice m s).w = s.w)
  ∧ (∀ l c, (l, c) ∈ m → ∀ i j, s.val i j = l →
      (colorize_slice m s).px i j = c)
  ∧ (∀ i j, s.val i j ∉ m.map Prod.fst →
      (colorize_slice m s).px i j = transparent)
  ∧ ((∀ i j, i < s.h → j < s.w → s.val i j = 0) →
      ∀ i j, i < s.h → j < s.w → (colorize_slice m s).px i j = transparent)
  ∧ ((m.map Prod.snd).Nodup → transparent ∉ m.map Prod.snd →
      (∀ x ∈ sliceValues s, x ≠ 0 → x ∈ m.map Prod.fst) →
      (0 : ℤ) ∈ sliceValues s →
      distinct_color_count (colorize_slice m s) =
        ((sliceValues s).toFinset.filter (· ≠ 0)).card + 1)

/-- What C2 asserts of the labeled branch: it runs, its axial panel
indices are the three quarter positions of the first axis, the coronal
and sagittal panels sit at the midpoints of the other two axes, and for
a first axis of length 8 the axial indices are 2, 4, 6. -/
def labeledIndexProps (v : Volume) : Prop :=
  (∃ r, render_slices v = some (RenderResult.labeled r)
    ∧ r.axialPanels.map Prod.fst = [v.dim0 / 4, v.dim0 / 2, 3 * v.dim0 / 4]
    ∧ r.coronal.1 = v.dim1 / 2
    ∧ r.sagittal.1 = v.dim2 / 2)
  ∧ (v.dim0 = 8 → [v.dim0 / 4, v.dim0 / 2, 3 * v.dim0 / 4] = [2, 4, 6])

/-- The value the empty-label branch produces when all three mid-slice
extractions are in bounds: a 1x3 grid of the three mid slices, each
panel titled by its axis name and index. -/
def emptyBranchResult (v : Volume) : EmptyRender :=
  ⟨(1, 3),
    [ ("Axial", v.dim0 / 2, axialSliceAt v (v.dim0 / 2)),
      ("Coronal", v.dim1 / 2, ⟨v.dim0, v.dim2, fun i k => v.val i (v.dim1 / 2) k⟩),
      ("Sagittal", v.dim2 / 2, ⟨v.dim0, v.dim1, fun i j => v.val i j (v.dim2 / 2)⟩) ]⟩

/-- What C9 asserts of a degenerate volume (some axis of length 0): the
empty branch is taken, the computed index for the degenerate axis is 0,
the slice extraction at that index fails, render as a whole fails, and
main ends in an uncaught error (a non-zero process exit). -/
def crashProps (v : Volume) : Prop :=
  nonzero_labels v = []
  ∧ render_slices v = none
  ∧ (v.dim0 = 0 → v.dim0 / 2 = 0 ∧ axialSlice v (v.dim0 / 2) = none)
  ∧ (v.dim0 ≠ 0 → v.dim1 = 0 →
      v.dim1 / 2 = 0 ∧ coronalSlice v (v.dim1 / 2) = none)
  ∧ (v.dim0 ≠ 0 → v.dim2 = 0 →
      v.dim2 / 2 = 0 ∧ sagittalSlice v (v.dim2 / 2) = none)
  ∧ ∀ input output,
      (main_run true v input output).exit = ExitStatus.uncaughtError

/-- What C10 asserts when every axis has length at least 1: every index
the labeled branch computes is in bounds, the axial guard filters
nothing, and every slice extraction succeeds. -/
def boundsProps (v : Volume) : Prop :=
  (∀ z ∈ slice_positions v, z < v.dim0)
  ∧ (slice_positions v).filter (fun z => z < v.dim0) = slice_positions v
  ∧ v.dim1 / 2 < v.dim1
  ∧ v.dim2 / 2 < v.dim2
  ∧ (∀ z ∈ slice_positions v, (axialSlice v z).isSome = true)
  ∧ (coronalSlice v (v.dim1 / 2)).isSome = true
  ∧ (sagittalSlice v (v.dim2 / 2)).isSome = true

/-- Witness volume with shape (8, 8, 8) and one non-zero label. -/
def wit8 : Volume := ⟨8, 8, 8, fun i _ _ => if i < 4 then 0 else 1⟩

/-- Witness volume with 25 distinct non-zero labels. -/
def wit25 : Volume := ⟨25, 1, 1, fun i _ _ => (i : ℤ) + 1⟩

/-- Witness volume with the two labels 3 and 7. -/
def wit5 : Volume := ⟨2, 1, 1, fun i _ _ => if i = 0 then 3 else 7⟩

/-- Witness volume containing only background. -/
def witAllZero : Volume := ⟨2, 2, 2, fun _ _ _ => 0⟩

/-- Degenerate all-zero volume whose first axis has length 0 (C7
counterexample). -/
def witNoAxis : Volume := ⟨0, 8, 8, fun _ _ _ => 0⟩

/-- Degenerate volume whose second axis has length 0 (C9 witness). -/
def witZeroY : Volume := ⟨3, 0, 3, fun _ _ _ => 0⟩

/-- Minimal all-zero volume for the entry-point witness. -/
def witOne : Volume := ⟨1, 1, 1, fun _ _ _ => 0⟩

/- Theorems. Helper lemmas come first; each claim of the specification
then gets exactly one theorem (plus, where needed, a counterexample and
a witness). -/

/-- The palette selector always returns exactly n colors. -/
lemma gdc_length (n : ℕ) : (get_distinct_colors n).length = n := by
  by_cases h : n ≤ 10
  · simp [get_distinct_colors, h]
  · by_cases h2 : 20 < n
    · simp [get_distinct_colors, h, h2]
      omega
    · simp [get_distinct_colors, h, h2]
      omega

/-- C4: get_distinct_colors returns a sequence of exactly n colors for
every n, in particular the empty sequence for n = 0. (Determinism across
calls is immediate: the embedding is a pure function of n, as is the
source, which reads no mutable state.) -/
theorem get_distinct_colors_length :
    (∀ n : ℕ, (get_distinct_colors n).length = n)
    ∧ get_distinct_colors 0 = [] :=
  ⟨fun n => gdc_length n, by decide⟩

/-- C3 counterexample: at n = 33 the 13th extra color (overall index 32)
is the last Set3 entry, because the colormap clamps index 12 to its last
color, whereas cycling as the claim states would give the first Set3
entry; the two selectors disagree. -/
theorem get_distinct_colors_cycling_cex :
    (get_distinct_colors 33).getD 32 transparent = (255, 237, 111, 255)
    ∧ (get_distinct_colors_cycled 33).getD 32 transparent = (141, 211, 199, 255)
    ∧ get_distinct_colors 33 ≠ get_distinct_colors_cycled 33 := by
  decide

/-- C3 (amended): for n at most 10 the selector returns the first n
tab10 colors; for n between 11 and 20 the first n tab20 colors; for
n above 20 all 20 tab20 colors followed by n-20 colors read from Set3
at indices 0..n-21, where indices beyond 11 clamp to the last Set3
entry (the last color repeats; there is no cycling). -/
theorem get_distinct_colors_palette_spec (n : ℕ) :
    (n ≤ 10 → get_distinct_colors n = tab10.take n)
    ∧ (10 < n → n ≤ 20 → get_distinct_colors n = tab20.take n)
    ∧ (20 < n → get_distinct_colors n =
        tab20 ++ (List.range (n - 20)).map
          (fun i => set3.getD (min i 11) transparent)) := by
  refine ⟨?_, ?_, ?_⟩
  · intro h
    interval_cases n <;> decide
  · intro h1 h2
    interval_cases n <;> decide
  · intro h
    have hten : ¬ n ≤ 10 := by omega
    have hmin : min n 20 = 20 := by omega
    have h20 : (List.range 20).map (cmapApply tab20) = tab20 := by decide
    simp only [get_distinct_colors, hten, if_false, h, if_true, hmin, h20]
    rfl

/-- Witness for C3: at n = 25 the selector concretely returns all of
tab20 followed by the first five Set3 colors. -/
theorem get_distinct_colors_palette_spec_witness :
    20 < 25
    ∧ get_distinct_colors 25 = tab20 ++ (List.range (25 - 20)).map
        (fun i => set3.getD (min i 11) transparent) :=
  ⟨by decide, (get_distinct_colors_palette_spec 25).2.2 (by decide)⟩

/-- The painting fold leaves the accumulator unchanged when no mapping
key equals the pixel value. -/
lemma paintFold_of_not_mem (m : List (ℤ × Color)) (v : ℤ) (acc : Color)
    (h : v ∉ m.map Prod.fst) :
    m.foldl (fun acc lc => if v = lc.1 then lc.2 else acc) acc = acc := by
  induction m generalizing acc with
  | nil => rfl
  | cons p t ih =>
    simp only [List.map_cons, List.mem_cons, not_or] at h
    simp only [List.foldl_cons]
    rw [if_neg h.1]
    exact ih acc h.2

/-- With duplicate-free keys, the painting fold returns the color of the
matching entry. -/
lemma paintFold_of_mem (m : List (ℤ × Color)) (a : ℤ) (c : Color) (acc : Color)
    (hk : (m.map Prod.fst).Nodup) (h : (a, c) ∈ m) :
    m.foldl (fun acc lc => if a = lc.1 then lc.2 else acc) acc = c := by
  induction m generalizing acc with
  | nil => cases h
  | cons p t ih =>
    simp only [List.map_cons, List.nodup_cons] at hk
    simp only [List.foldl_cons]
    rcases List.mem_cons.mp h with h1 | h1
    · rw [← h1]
      rw [if_pos rfl]
      apply paintFold_of_not_mem
      rw [← h1] at hk
      exact hk.1
    · by_cases hc : a = p.1
      · exfalso
        apply hk.1
        rw [← hc]
        exact List.mem_map.mpr ⟨(a, c), h1, rfl⟩
      · rw [if_neg hc]
        exact ih acc hk.2 h1

/-- A pixel whose value is absent from the mapping stays transparent. -/
lemma paintPixel_not_mem {m : List (ℤ × Color)} {v : ℤ}
    (h : v ∉ m.map Prod.fst) : paintPixel m v = transparent :=
  paintFold_of_not_mem m v transparent h

/-- A pixel whose value is a key receives exactly the mapped color. -/
lemma paintPixel_mem {m : List (ℤ × Color)} {a : ℤ} {c : Color}
    (hk : (m.map Prod.fst).Nodup) (h : (a, c) ∈ m) : paintPixel m a = c :=
  paintFold_of_mem m a c transparent hk h

/-- With duplicate-free colors, two entries sharing a color share their
label. -/
lemma label_eq_of_color_eq {m : List (ℤ × Color)}
    (hc : (m.map Prod.snd).Nodup) :
    ∀ {a b : ℤ} {c : Color}, (a, c) ∈ m → (b, c) ∈ m → a = b := by
  induction m with
  | nil =>
    intro a b c ha _
    cases ha
  | cons p t ih =>
    simp only [List.map_cons, List.nodup_cons] at hc
    intro a b c ha hb
    rcases List.mem_cons.mp ha with h1 | h1 <;> rcases List.mem_cons.mp hb with h2 | h2
    · rw [← h2] at h1
      exact (Prod.mk.injEq a c b c).mp h1 |>.1
    · exfalso
      apply hc.1
      rw [← h1]
      exact List.mem_map.mpr ⟨(b, c), h2, rfl⟩
    · exfalso
      apply hc.1
      rw [← h2]
      exact List.mem_map.mpr ⟨(a, c), h1, rfl⟩
    · exact ih hc.2 h1 h2

/-- The pixel list of a colorized slice is the value list mapped through
the per-pixel paint function. -/
lemma imagePixels_colorize (m : List (ℤ × Color)) (s : Slice2D) :
    imagePixels (colorize_slice m s) = (sliceValues s).map (paintPixel m) := by
  simp [imagePixels, colorize_slice, sliceValues, List.map_flatMap,
    List.map_map, Function.comp_def]

/-- toFinset of a mapped list is the image of the toFinset. -/
lemma toFinset_map_list (l : List ℤ) (f : ℤ → Color) :
    (l.map f).toFinset = l.toFinset.image f := by
  ext x
  simp

/-- Under the hypotheses the claim needs, colorize produces exactly one
more distinct color than there are distinct non-zero values in the
slice. -/
lemma colorize_distinct_count (m : List (ℤ × Color)) (s : Slice2D)
    (hk : (m.map Prod.fst).Nodup) (h0 : (0 : ℤ) ∉ m.map Prod.fst)
    (hc : (m.map Prod.snd).Nodup) (ht : transparent ∉ m.map Prod.snd)
    (hcomp : ∀ x ∈ sliceValues s, x ≠ 0 → x ∈ m.map Prod.fst)
    (hbg : (0 : ℤ) ∈ sliceValues s) :
    distinct_color_count (colorize_slice m s) =
      ((sliceValues s).toFinset.filter (· ≠ 0)).card + 1 := by
  classical
  rw [distinct_color_count, imagePixels_colorize, toFinset_map_list]
  set V := (sliceValues s).toFinset with hV
  set V' := V.filter (· ≠ 0) with hV'
  have hmem : ∀ x ∈ V', x ∈ m.map Prod.fst := by
    intro x hx
    rw [hV', Finset.mem_filter] at hx
    exact hcomp x (List.mem_toFinset.mp hx.1) (by simpa using hx.2)
  have hVsplit : V = insert (0 : ℤ) V' := by
    ext x
    simp only [hV', Finset.mem_insert, Finset.mem_filter]
    constructor
    · intro hx
      by_cases hx0 : x = 0
      · exact Or.inl hx0
      · exact Or.inr ⟨hx, by simpa using hx0⟩
    · rintro (rfl | ⟨hx, _⟩)
      · exact List.mem_toFinset.mpr hbg
      · exact hx
  have hpaint : ∀ x ∈ V', ∃ c, (x, c) ∈ m ∧ paintPixel m x = c ∧ c ∈ m.map Prod.snd := by
    intro x hx
    rcases List.mem_map.mp (hmem x hx) with ⟨lc, hlc, hfst⟩
    refine ⟨lc.2, ?_, ?_, List.mem_map.mpr ⟨lc, hlc, rfl⟩⟩
    · rw [← hfst]
      exact hlc
    · apply paintPixel_mem hk
      rw [← hfst]
      exact hlc
  rw [hVsplit, Finset.image_insert, paintPixel_not_mem h0]
  have hnotin : transparent ∉ V'.image (paintPixel m) := by
    intro hmem2
    rcases Finset.mem_image.mp hmem2 with ⟨x, hx, hfx⟩
    rcases hpaint x hx with ⟨c, _, hpx, hcm⟩
    apply ht
    rw [hpx] at hfx
    rw [← hfx]
    exact hcm
  rw [Finset.card_insert_of_not_mem hnotin]
  congr 1
  apply Finset.card_image_of_injOn
  intro x hx y hy hxy
  rcases hpaint x (Finset.mem_coe.mp hx) with ⟨cx, hcx, hpx, _⟩
  rcases hpaint y (Finset.mem_coe.mp hy) with ⟨cy, hcy, hpy, _⟩
  rw [hpx, hpy] at hxy
  rw [hxy] at hcx
  exact label_eq_of_color_eq hc hcx hcy

/-- C1 counterexample: on a 1x1 slice whose only pixel carries the one
mapped label, the output has exactly 1 distinct color, not k+1 = 2: the
claimed count fails whenever the slice has no background pixel. -/
theorem colorize_count_cex :
    ((sliceValues cex_slice).toFinset.filter (· ≠ 0)).card = 1
    ∧ distinct_color_count (colorize_slice cex_map cex_slice) = 1
    ∧ distinct_color_count (colorize_slice cex_map cex_slice) ≠
        ((sliceValues cex_slice).toFinset.filter (· ≠ 0)).card + 1 := by
  decide

/-- C1 (amended): for every slice and every mapping with duplicate-free
keys not containing 0, colorize keeps height and width, paints every
pixel whose value is a key with exactly the mapped color, leaves every
pixel whose value is absent (in particular 0) fully transparent, returns
an all-transparent image on an all-background slice, and, provided the
mapped colors are pairwise distinct and non-transparent, every non-zero
slice value is mapped, and at least one background pixel exists, shows
exactly k+1 distinct colors for k distinct non-zero slice values. -/
theorem colorize_slice_spec (m : List (ℤ × Color)) (s : Slice2D)
    (hk : (m.map Prod.fst).Nodup) (h0 : (0 : ℤ) ∉ m.map Prod.fst) :
    colorizeProps m s := by
  refine ⟨⟨rfl, rfl⟩, ?_, ?_, ?_, ?_⟩
  · intro l c hlc i j hv
    show paintPixel m (s.val i j) = c
    rw [hv]
    exact paintPixel_mem hk hlc
  · intro i j hv
    exact paintPixel_not_mem hv
  · intro hall i j hi hj
    show paintPixel m (s.val i j) = transparent
    rw [hall i j hi hj]
    exact paintPixel_not_mem h0
  · intro hc ht hcomp hbg
    exact colorize_distinct_count m s hk h0 hc ht hcomp hbg

/-- Witness for C1: the amended theorem applied to a concrete 2x2 slice
with labels 1 and 2 and two background pixels. -/
theorem colorize_slice_spec_witness :
    ((cw_map.map Prod.fst).Nodup ∧ (0 : ℤ) ∉ cw_map.map Prod.fst)
    ∧ colorizeProps cw_map cw_slice :=
  ⟨⟨by decide, by decide⟩, colorize_slice_spec cw_map cw_slice (by decide) (by decide)⟩

/-- The distinct-label list is sorted weakly ascending. -/
lemma unique_labels_sorted (v : Volume) :
    (unique_labels v).Sorted (· ≤ ·) :=
  List.Pairwise.sublist (List.dedup_sublist _)
    (List.sorted_insertionSort (· ≤ ·) (allValues v))

/-- The distinct-label list has no duplicates. -/
lemma unique_labels_nodup (v : Volume) : (unique_labels v).Nodup :=
  List.nodup_dedup _

/-- Membership in the distinct-label list is membership among the volume
values. -/
lemma mem_unique_labels (v : Volume) (x : ℤ) :
    x ∈ unique_labels v ↔ x ∈ allValues v := by
  rw [unique_labels, List.mem_dedup, List.mem_insertionSort]

/-- Membership in the non-zero label list. -/
lemma mem_nonzero_labels (v : Volume) (x : ℤ) :
    x ∈ nonzero_labels v ↔ x ∈ allValues v ∧ x ≠ 0 := by
  rw [nonzero_labels, List.mem_filter, mem_unique_labels]
  simp

/-- The non-zero label list has no duplicates. -/
lemma nonzero_labels_nodup (v : Volume) : (nonzero_labels v).Nodup :=
  (unique_labels_nodup v).filter _

/-- The non-zero label list is sorted strictly ascending. -/
lemma nonzero_labels_sorted (v : Volume) :
    (nonzero_labels v).Sorted (· < ·) := by
  have hle : (nonzero_labels v).Sorted (· ≤ ·) :=
    List.Pairwise.sublist (List.filter_sublist _) (unique_labels_sorted v)
  have hne := nonzero_labels_nodup v
  exact (hle.and hne).imp fun h => lt_of_le_of_ne h.1 h.2

/-- The label-color association list pairs each label with a color, so
it is exactly as long as the label list. -/
lemma label_to_color_length (v : Volume) :
    (label_to_color v).length = (nonzero_labels v).length := by
  rw [label_to_color, List.length_zip, gdc_length]
  exact Nat.min_self _

/-- C5: the label-color map built by render keys exactly the distinct
non-zero labels of the volume in ascending order, and its i-th entry
pairs the i-th label with the i-th color of the palette sized by the
label count. -/
theorem label_to_color_spec (v : Volume) :
    ((label_to_color v).map Prod.fst = nonzero_labels v)
    ∧ (∀ x, x ∈ (label_to_color v).map Prod.fst ↔ x ∈ allValues v ∧ x ≠ 0)
    ∧ (nonzero_labels v).Sorted (· < ·)
    ∧ (∀ i, i < (nonzero_labels v).length →
        (label_to_color v).getD i (0, transparent) =
          ((nonzero_labels v).getD i 0,
           (get_distinct_colors (nonzero_labels v).length).getD i transparent)) := by
  have hkeys : (label_to_color v).map Prod.fst = nonzero_labels v := by
    rw [label_to_color]
    exact List.map_fst_zip _ _ (by rw [gdc_length])
  refine ⟨hkeys, ?_, nonzero_labels_sorted v, ?_⟩
  · intro x
    rw [hkeys, mem_nonzero_labels]
  · intro i hi
    have h1 : i < (label_to_color v).length := by
      rw [label_to_color_length]
      exact hi
    have h2 : i < (get_distinct_colors (nonzero_labels v).length).length := by
      rw [gdc_length]
      exact hi
    rw [List.getD_eq_getElem _ _ h1, List.getD_eq_getElem _ _ hi,
      List.getD_eq_getElem _ _ h2]
    exact List.getElem_zip

/-- Witness for C5: in a concrete two-label volume the second entry of
the map pairs the second label with the second palette color. -/
theorem label_to_color_spec_witness :
    1 < (nonzero_labels wit5).length
    ∧ (label_to_color wit5).getD 1 (0, transparent) =
        ((nonzero_labels wit5).getD 1 0,
         (get_distinct_colors (nonzero_labels wit5).length).getD 1 transparent) :=
  ⟨by decide, (label_to_color_spec wit5).2.2.2 1 (by decide)⟩

/-- C6: the legend shows one patch per label, carrying its numeric value
and color, when there are at most 15 labels; with more than 15 it shows
exactly 15 patches, the first 14 in ascending label order plus one
summary patch counting the labels not shown. -/
theorem legend_patches_spec (v : Volume) :
    ((nonzero_labels v).length ≤ 15 →
      legend_patches (label_to_color v) =
        (label_to_color v).map (fun lc => Patch.real lc.1 lc.2)
      ∧ (legend_patches (label_to_color v)).length = (nonzero_labels v).length)
    ∧ (15 < (nonzero_labels v).length →
      (legend_patches (label_to_color v)).length = 15
      ∧ legend_patches (label_to_color v) =
          ((label_to_color v).map (fun lc => Patch.real lc.1 lc.2)).take 14
          ++ [Patch.summary ((nonzero_labels v).length - 14)]) := by
  have hlen : ((label_to_color v).map
      (fun lc => Patch.real lc.1 lc.2)).length = (nonzero_labels v).length := by
    rw [List.length_map, label_to_color_length]
  constructor
  · intro h
    have hnot : ¬ 15 < ((label_to_color v).map
        (fun lc => Patch.real lc.1 lc.2)).length := by
      rw [hlen]
      omega
    constructor
    · rw [legend_patches, if_neg hnot]
    · rw [legend_patches, if_neg hnot, hlen]
  · intro h
    have hyes : 15 < ((label_to_color v).map
        (fun lc => Patch.real lc.1 lc.2)).length := by
      rw [hlen]
      exact h
    constructor
    · rw [legend_patches, if_pos hyes]
      rw [List.length_append, List.length_take]
      simp only [List.length_singleton]
      rw [hlen]
      omega
    · rw [legend_patches, if_pos hyes, hlen]

/-- Witness for C6: a concrete volume with 25 distinct labels yields a
15-entry legend ending in a summary patch announcing 11 more labels. -/
theorem legend_patches_spec_witness :
    15 < (nonzero_labels wit25).length
    ∧ ((legend_patches (label_to_color wit25)).length = 15
      ∧ legend_patches (label_to_color wit25) =
          ((label_to_color wit25).map (fun lc => Patch.real lc.1 lc.2)).take 14
          ++ [Patch.summary ((nonzero_labels wit25).length - 14)])
    ∧ (nonzero_labels wit25).length - 14 = 11 :=
  ⟨by decide, (legend_patches_spec wit25).2 (by decide), by decide⟩

/-- Any value of the volume witnesses that all three dimensions are
positive. -/
lemma dims_pos_of_mem_allValues {v : Volume} {x : ℤ}
    (h : x ∈ allValues v) : 1 ≤ v.dim0 ∧ 1 ≤ v.dim1 ∧ 1 ≤ v.dim2 := by
  simp only [allValues, List.mem_flatMap, List.mem_map, List.mem_range] at h
  obtain ⟨i, hi, j, hj, k, hk, _⟩ := h
  omega

/-- A volume with a non-zero label has positive dimensions. -/
lemma dims_pos_of_labeled {v : Volume} (h : nonzero_labels v ≠ []) :
    1 ≤ v.dim0 ∧ 1 ≤ v.dim1 ∧ 1 ≤ v.dim2 := by
  obtain ⟨x, hx⟩ := List.exists_mem_of_ne_nil _ h
  exact dims_pos_of_mem_allValues ((mem_nonzero_labels v x).mp hx).1

/-- With a positive first axis, all three axial positions are in
bounds. -/
lemma slice_positions_lt {v : Volume} (h : 1 ≤ v.dim0) :
    ∀ z ∈ slice_positions v, z < v.dim0 := by
  intro z hz
  simp only [slice_positions, List.mem_cons, List.not_mem_nil, or_false] at hz
  rcases hz with rfl | rfl | rfl <;> omega

/-- C10: whenever every axis has length at least 1, every slice index
the labeled branch computes is strictly below its axis length, the axial
guard keeps all three slices, and every extraction succeeds. -/
theorem labeled_indices_in_bounds (v : Volume)
    (h0 : 1 ≤ v.dim0) (h1 : 1 ≤ v.dim1) (h2 : 1 ≤ v.dim2) :
    boundsProps v := by
  have hz := slice_positions_lt h0
  refine ⟨hz, ?_, by omega, by omega, ?_, ?_, ?_⟩
  · rw [List.filter_eq_self]
    intro a ha
    simpa using hz a ha
  · intro z hzm
    rw [axialSlice, if_pos (hz z hzm)]
    rfl
  · rw [coronalSlice, if_pos (by omega)]
    rfl
  · rw [sagittalSlice, if_pos (by omega)]
    rfl

/-- Witness for C10: the bounds facts instantiated at the concrete
8x8x8 labeled volume. -/
theorem labeled_indices_in_bounds_witness :
    (1 ≤ wit8.dim0 ∧ 1 ≤ wit8.dim1 ∧ 1 ≤ wit8.dim2) ∧ boundsProps wit8 :=
  ⟨⟨by decide, by decide, by decide⟩,
    labeled_indices_in_bounds wit8 (by decide) (by decide) (by decide)⟩

/-- C2: for every volume with a non-zero label, render takes the labeled
branch; the axial panels sit exactly at the three quarter positions of
the first axis, the coronal panel at half the second axis and the
sagittal panel at half the third; a first axis of length 8 puts the
axial panels at 2, 4, 6. -/
theorem labeled_slice_indices (v : Volume) (h : nonzero_labels v ≠ []) :
    labeledIndexProps v := by
  obtain ⟨hd0, hd1, hd2⟩ := dims_pos_of_labeled h
  have hz := slice_positions_lt hd0
  have hfilter : (slice_positions v).filter (fun z => z < v.dim0) =
      slice_positions v := by
    rw [List.filter_eq_self]
    intro a ha
    simpa using hz a ha
  have hcor : coronalSlice v (v.dim1 / 2) =
      some ⟨v.dim0, v.dim2, fun i k => v.val i (v.dim1 / 2) k⟩ := by
    rw [coronalSlice, if_pos (by omega)]
  have hsag : sagittalSlice v (v.dim2 / 2) =
      some ⟨v.dim0, v.dim1, fun i j => v.val i j (v.dim2 / 2)⟩ := by
    rw [sagittalSlice, if_pos (by omega)]
  constructor
  · refine ⟨⟨(2, 3),
      ((slice_positions v).filter (fun z => z < v.dim0)).map
        (fun z => (z, colorize_slice (label_to_color v) (axialSliceAt v z))),
      (v.dim1 / 2, colorize_slice (label_to_color v)
        ⟨v.dim0, v.dim2, fun i k => v.val i (v.dim1 / 2) k⟩),
      (v.dim2 / 2, colorize_slice (label_to_color v)
        ⟨v.dim0, v.dim1, fun i j => v.val i j (v.dim2 / 2)⟩),
      legend_patches (label_to_color v), (nonzero_labels v).length,
      (v.dim0, v.dim1, v.dim2)⟩, ?_, ?_, rfl, rfl⟩
    · rw [render_slices, if_neg h]
      simp only [render_labeled, hcor, hsag, Option.bind_eq_bind,
        Option.some_bind, Option.map_some]
      rfl
    · have hproj : (Prod.fst ∘ fun z =>
          (z, colorize_slice (label_to_color v) (axialSliceAt v z))) =
          fun z : ℕ => z := rfl
      rw [List.map_map, hproj, List.map_id', hfilter]
      rfl
  · intro h8
    rw [h8]

set_option maxRecDepth 40000 in
/-- Witness for C2: the labeled branch facts at the concrete 8x8x8
volume, whose axial indices are 2, 4 and 6. -/
theorem labeled_slice_indices_witness :
    nonzero_labels wit8 ≠ [] ∧ labeledIndexProps wit8 :=
  ⟨by decide, labeled_slice_indices wit8 (by decide)⟩

/-- C7 counterexample: an all-zero volume whose first axis has length 0
reaches the empty-label branch but crashes on the very first slice
extraction instead of saving a figure, so the claim fails for it. -/
theorem render_empty_degenerate_cex :
    nonzero_labels witNoAxis = [] ∧ render_slices witNoAxis = none := by
  constructor
  · decide
  · rfl

/-- C7 (amended): every volume with no non-zero label and every axis of
length at least 1 takes the empty branch and renders the 1x3 grid of
grayscale mid slices, titled by axis name and index, with none of the
labeled-branch output. -/
theorem render_empty_branch_spec (v : Volume) (hz : nonzero_labels v = [])
    (h0 : 1 ≤ v.dim0) (h1 : 1 ≤ v.dim1) (h2 : 1 ≤ v.dim2) :
    render_slices v = some (RenderResult.empty (emptyBranchResult v)) := by
  have hax : axialSlice v (v.dim0 / 2) = some (axialSliceAt v (v.dim0 / 2)) := by
    rw [axialSlice, if_pos (by omega)]
  have hcor : coronalSlice v (v.dim1 / 2) =
      some ⟨v.dim0, v.dim2, fun i k => v.val i (v.dim1 / 2) k⟩ := by
    rw [coronalSlice, if_pos (by omega)]
  have hsag : sagittalSlice v (v.dim2 / 2) =
      some ⟨v.dim0, v.dim1, fun i j => v.val i j (v.dim2 / 2)⟩ := by
    rw [sagittalSlice, if_pos (by omega)]
  rw [render_slices, if_pos hz]
  simp only [renderEmpty, hax, hcor, hsag, Option.bind_eq_bind,
    Option.some_bind, Option.map_some]
  rfl

/-- Witness for C7: the amended theorem at the concrete all-zero 2x2x2
volume. -/
theorem render_empty_branch_spec_witness :
    (nonzero_labels witAllZero = []
      ∧ 1 ≤ witAllZero.dim0 ∧ 1 ≤ witAllZero.dim1 ∧ 1 ≤ witAllZero.dim2)
    ∧ render_slices witAllZero =
        some (RenderResult.empty (emptyBranchResult witAllZero)) :=
  ⟨⟨by decide, by decide, by decide, by decide⟩,
    render_empty_branch_spec witAllZero (by decide)
      (by decide) (by decide) (by decide)⟩

/-- A volume with a zero-length axis holds no values at all. -/
lemma allValues_nil_of_zero_axis {v : Volume}
    (h : v.dim0 = 0 ∨ v.dim1 = 0 ∨ v.dim2 = 0) : allValues v = [] := by
  rcases h with h | h | h
  · simp [allValues, h]
  · simp [allValues, h]
  · simp [allValues, h]

/-- A volume with a zero-length axis has no non-zero labels, so render
takes the empty branch on it. -/
lemma nonzero_labels_nil_of_zero_axis {v : Volume}
    (h : v.dim0 = 0 ∨ v.dim1 = 0 ∨ v.dim2 = 0) : nonzero_labels v = [] := by
  rw [nonzero_labels, unique_labels, allValues_nil_of_zero_axis h]
  rfl

/-- C8: a missing input makes the entry point print to the error stream
and exit with status 1 before any load attempt, creating no output file;
for an existing input with no output argument, the written output path
is the input path with its extension replaced by .jpg. -/
theorem main_run_spec (v : Volume) (input : FsPath) (output : Option FsPath) :
    ((main_run false v input output).exit = ExitStatus.cleanExit 1
      ∧ (main_run false v input output).stderrMsgs ≠ []
      ∧ (main_run false v input output).loaded = false
      ∧ (main_run false v input output).outputWritten = none)
    ∧ ((render_slices v).isSome = true →
      (main_run true v input none).outputWritten =
        some ⟨input.stem, ".jpg"⟩) := by
  constructor
  · exact ⟨rfl, by simp [main_run], rfl, rfl⟩
  · intro hs
    obtain ⟨r, hr⟩ := Option.isSome_iff_exists.mp hs
    simp [main_run, hr, resolve_output, with_suffix]

/-- Witness for C8: the concrete minimal volume renders, and with input
stem scan and extension .nrrd the default output is scan with extension
.jpg. -/
theorem main_run_spec_witness :
    (render_slices witOne).isSome = true
    ∧ (main_run true witOne ⟨"scan", ".nrrd"⟩ none).outputWritten =
        some ⟨"scan", ".jpg"⟩ :=
  ⟨by rfl, (main_run_spec witOne ⟨"scan", ".nrrd"⟩ none).2 (by rfl)⟩

/-- C9: for every volume with a zero-length axis, the empty branch runs,
the mid index computed for the degenerate axis is 0, extracting the
slice there fails, render as a whole fails, and the error propagates
uncaught out of main, ending the process with a non-zero status. -/
theorem render_zero_axis_crash (v : Volume)
    (h : v.dim0 = 0 ∨ v.dim1 = 0 ∨ v.dim2 = 0) : crashProps v := by
  have hnl : nonzero_labels v = [] := nonzero_labels_nil_of_zero_axis h
  have hrender : render_slices v = none := by
    rw [render_slices, if_pos hnl]
    suffices hre : renderEmpty v = none by rw [hre]; rfl
    by_cases c0 : v.dim0 = 0
    · have hax : axialSlice v (v.dim0 / 2) = none := by
        rw [axialSlice, if_neg (by omega)]
      simp [renderEmpty, hax]
    · have hax : axialSlice v (v.dim0 / 2) =
          some (axialSliceAt v (v.dim0 / 2)) := by
        rw [axialSlice, if_pos (by omega)]
      by_cases c1 : v.dim1 = 0
      · have hcor : coronalSlice v (v.dim1 / 2) = none := by
          rw [coronalSlice, if_neg (by omega)]
        simp [renderEmpty, hax, hcor]
      · have c2 : v.dim2 = 0 := by tauto
        have hcor : coronalSlice v (v.dim1 / 2) =
            some ⟨v.dim0, v.dim2, fun i k => v.val i (v.dim1 / 2) k⟩ := by
          rw [coronalSlice, if_pos (by omega)]
        have hsag : sagittalSlice v (v.dim2 / 2) = none := by
          rw [sagittalSlice, if_neg (by omega)]
        simp [renderEmpty, hax, hcor, hsag]
  refine ⟨hnl, hrender, ?_, ?_, ?_, ?_⟩
  · intro h0
    refine ⟨by omega, ?_⟩
    rw [axialSlice, if_neg (by omega)]
  · intro _ h1
    refine ⟨by omega, ?_⟩
    rw [coronalSlice, if_neg (by omega)]
  · intro _ h2
    refine ⟨by omega, ?_⟩
    rw [sagittalSlice, if_neg (by omega)]
  · intro input output
    simp [main_run, hrender]

/-- Witness for C9: the crash facts at a concrete volume whose second
axis has length 0. -/
theorem render_zero_axis_crash_witness :
    (witZeroY.dim0 = 0 ∨ witZeroY.dim1 = 0 ∨ witZeroY.dim2 = 0)
    ∧ crashProps witZeroY :=
  ⟨by decide, render_zero_axis_crash witZeroY (by decide)⟩

end NrrdPreview
